import Mathlib

/-!
Verification development for the gene search and data-retrieval layer of the
UCSF long-read RNA-seq dashboard.  The definitions below are a shallow
embedding of `app/utils/db_utils.py` and `app/utils/polars_utils.py`:
pure functions become Lean functions, the module-level mutable globals of
`db_utils` become an explicit state record that is threaded through the
operations, database tables become lists of rows, and fallible database
operations return `Except`.
-/

/-- Lexicographic comparison of character lists by code point; model of the
ordering used by Python, Polars and the database on strings. -/
def charsLE : List Char → List Char → Bool
  | [], _ => true
  | _ :: _, [] => false
  | a :: as, b :: bs =>
    if a.toNat < b.toNat then true
    else if b.toNat < a.toNat then false
    else charsLE as bs

/-- String order used whenever the source sorts by a string column. -/
def strLE (a b : String) : Bool := charsLE a.data b.data

theorem charsLE_total : ∀ a b : List Char, charsLE a b = true ∨ charsLE b a = true := by
  intro a
  induction a with
  | nil => intro b; left; rfl
  | cons x xs ih =>
    intro b
    cases b with
    | nil => right; rfl
    | cons y ys =>
      simp only [charsLE]
      rcases Nat.lt_trichotomy x.toNat y.toNat with h | h | h
      · left; simp [h]
      · have h1 : ¬ x.toNat < y.toNat := by omega
        have h2 : ¬ y.toNat < x.toNat := by omega
        rcases ih ys with hc | hc
        · left; simp [h1, h2, hc]
        · right; simp [h1, h2, hc]
      · right; simp [h]

theorem charsLE_trans : ∀ a b c : List Char,
    charsLE a b = true → charsLE b c = true → charsLE a c = true := by
  intro a
  induction a with
  | nil => intro b c _ _; rfl
  | cons x xs ih =>
    intro b c hab hbc
    cases b with
    | nil => simp [charsLE] at hab
    | cons y ys =>
      cases c with
      | nil => simp [charsLE] at hbc
      | cons z zs =>
        simp only [charsLE] at hab hbc ⊢
        by_cases hxy : x.toNat < y.toNat
        · by_cases hyz : y.toNat < z.toNat
          · have : x.toNat < z.toNat := Nat.lt_trans hxy hyz
            simp [this]
          · simp only [hyz, if_false] at hbc
            by_cases hzy : z.toNat < y.toNat
            · simp [hzy] at hbc
            · have hyz2 : y.toNat = z.toNat := by omega
              have : x.toNat < z.toNat := by omega
              simp [this]
        · simp only [hxy, if_false] at hab
          by_cases hyx : y.toNat < x.toNat
          · simp [hyx] at hab
          · simp only [hyx, if_false] at hab
            have hxy2 : x.toNat = y.toNat := by omega
            by_cases hyz : y.toNat < z.toNat
            · have : x.toNat < z.toNat := by omega
              simp [this]
            · simp only [hyz, if_false] at hbc
              by_cases hzy : z.toNat < y.toNat
              · simp [hzy] at hbc
              · simp only [hzy, if_false] at hbc
                have hx : ¬ x.toNat < z.toNat := by omega
                have hz : ¬ z.toNat < x.toNat := by omega
                simp only [hx, hz, if_false]
                exact ih ys zs hab hbc

theorem strLE_total (a b : String) : strLE a b = true ∨ strLE b a = true :=
  charsLE_total a.data b.data

theorem strLE_trans {a b c : String} (h1 : strLE a b = true) (h2 : strLE b c = true) :
    strLE a c = true :=
  charsLE_trans a.data b.data c.data h1 h2

/-- First-occurrence deduplication by a key function; models both the Python
dict-insertion idiom of the gene index loader and SQL DISTINCT. -/
def dedupByKey {α β : Type} [DecidableEq β] (f : α → β) : List α → List α
  | [] => []
  | x :: xs => x :: (dedupByKey f xs).filter (fun y => f y ≠ f x)

theorem mem_of_mem_dedupByKey {α β : Type} [DecidableEq β] (f : α → β) :
    ∀ (l : List α) (x : α), x ∈ dedupByKey f l → x ∈ l := by
  intro l
  induction l with
  | nil => intro x h; simp [dedupByKey] at h
  | cons a as ih =>
    intro x h
    simp only [dedupByKey, List.mem_cons] at h
    rcases h with h | h
    · simp [h]
    · exact List.mem_cons_of_mem _ (ih x (List.mem_of_mem_filter h))

theorem map_dedupByKey_nodup {α β : Type} [DecidableEq β] (f : α → β) :
    ∀ l : List α, ((dedupByKey f l).map f).Nodup := by
  intro l
  induction l with
  | nil => simp [dedupByKey]
  | cons a as ih =>
    simp only [dedupByKey, List.map_cons, List.nodup_cons]
    constructor
    · intro hmem
      rcases List.mem_map.mp hmem with ⟨y, hy, hfy⟩
      have := (List.mem_filter.mp hy).2
      simp only [decide_eq_true_eq] at this
      exact this hfy
    · exact ih.sublist (List.Sublist.map f (List.filter_sublist _))

theorem mem_map_dedupByKey {α β : Type} [DecidableEq β] (f : α → β) :
    ∀ (l : List α) (b : β), b ∈ (dedupByKey f l).map f ↔ b ∈ l.map f := by
  intro l
  induction l with
  | nil => intro b; simp [dedupByKey]
  | cons a as ih =>
    intro b
    simp only [dedupByKey, List.map_cons, List.mem_cons]
    constructor
    · intro h
      rcases h with h | h
      · exact Or.inl h
      · rcases List.mem_map.mp h with ⟨y, hy, hfy⟩
        have : y ∈ dedupByKey f as := List.mem_of_mem_filter hy
        exact Or.inr ((ih b).mp (hfy ▸ List.mem_map_of_mem f this))
    · intro h
      rcases h with h | h
      · exact Or.inl h
      · by_cases hb : b = f a
        · exact Or.inl hb
        · rcases List.mem_map.mp ((ih b).mpr h) with ⟨y, hy, hfy⟩
          refine Or.inr (List.mem_map.mpr ⟨y, List.mem_filter.mpr ⟨hy, ?_⟩, hfy⟩)
          simp only [decide_eq_true_eq]
          intro hcon
          exact hb (hfy ▸ hcon ▸ rfl)

namespace PolarsUtils

/-- One row of the transcript-expression frame handed to
`order_transcripts_by_expression`: the sample id, the transcript id, and the
value of the selected expression column (`cpm_normalized_tmm` by default). -/
structure ExprRow where
  sample_id : String
  transcript_id : String
  value : Int
  deriving DecidableEq, Repr

/-- One row of the transcript-annotation frame (only the fields the ordering
utility touches: the transcript id plus a representative payload column). -/
structure AnnRow where
  transcript_id : String
  exon_number : Int
  deriving DecidableEq, Repr

/-- One entry of a Python list passed as `top_n`: an integer, or a
non-integer scalar such as a string, whose comparison against an int in the
range validation raises an uncaught TypeError. -/
inductive PyEntry where
  | int (n : Int)
  | str (s : String)
  deriving DecidableEq, Repr

/-- The Python values accepted for the `top_n` argument: an integer, a
list/tuple of arbitrary entries, or anything else. -/
inductive PyTopN where
  | int (n : Int)
  | list (xs : List PyEntry)
  | other
  deriving DecidableEq, Repr

/-- The uncaught exception raised when the range validation compares an int
against a non-integer entry. -/
def typeErrorMsg : String :=
  "TypeError: comparison not supported between instances of int and str"

/-- Membership of a transcript id in both input frames; models the
intersection `annotation_transcripts & expression_transcripts`. -/
def inBoth (ann : List AnnRow) (expr : List ExprRow) (t : String) : Bool :=
  ann.any (fun r => r.transcript_id = t) && expr.any (fun r => r.transcript_id = t)

/-- The annotation frame filtered to transcripts present in both frames. -/
def filteredAnn (ann : List AnnRow) (expr : List ExprRow) : List AnnRow :=
  ann.filter (fun r => inBoth ann expr r.transcript_id)

/-- The expression frame filtered to transcripts present in both frames. -/
def filteredExpr (ann : List AnnRow) (expr : List ExprRow) : List ExprRow :=
  expr.filter (fun r => inBoth ann expr r.transcript_id)

/-- Distinct transcript ids of an expression frame, first occurrence first;
the group keys of the `group_by(transcript_id)` aggregation. -/
def transcriptsOf (l : List ExprRow) : List String :=
  dedupByKey id (l.map (fun r => r.transcript_id))

/-- Total expression of one transcript: the `pl.sum(expression_column)`
aggregate over the rows of that transcript. -/
def totalExpr (l : List ExprRow) (t : String) : Int :=
  ((l.filter (fun r => r.transcript_id = t)).map (fun r => r.value)).foldl (· + ·) 0

/-- The aggregated frame `(transcript_id, total_expression)`. -/
def aggregated (l : List ExprRow) : List (String × Int) :=
  (transcriptsOf l).map (fun t => (t, totalExpr l t))

/-- Sort key of the first sort: total expression descending, transcript id
ascending on ties. -/
def descKeyLE (a b : String × Int) : Prop :=
  b.2 < a.2 ∨ (a.2 = b.2 ∧ strLE a.1 b.1 = true)

instance : DecidableRel descKeyLE := fun a b =>
  inferInstanceAs (Decidable (b.2 < a.2 ∨ (a.2 = b.2 ∧ strLE a.1 b.1 = true)))

instance : IsTotal (String × Int) descKeyLE where
  total a b := by
    rcases Int.lt_trichotomy a.2 b.2 with h | h | h
    · right; exact Or.inl h
    · rcases strLE_total a.1 b.1 with hs | hs
      · left; exact Or.inr ⟨h, hs⟩
      · right; exact Or.inr ⟨h.symm, hs⟩
    · left; exact Or.inl h

instance : IsTrans (String × Int) descKeyLE where
  trans a b c hab hbc := by
    rcases hab with h1 | ⟨he1, hs1⟩
    · rcases hbc with h2 | ⟨he2, hs2⟩
      · exact Or.inl (Int.lt_trans h2 h1)
      · exact Or.inl (he2 ▸ h1)
    · rcases hbc with h2 | ⟨he2, hs2⟩
      · exact Or.inl (he1 ▸ h2)
      · exact Or.inr ⟨he1.trans he2, strLE_trans hs1 hs2⟩

/-- Transcript ids sorted by total expression descending with ascending-id
tie-break: `ordered_transcript_ids` in the source. -/
def orderedIds (ann : List AnnRow) (expr : List ExprRow) : List String :=
  (List.insertionSort descKeyLE (aggregated (filteredExpr ann expr))).map Prod.fst

/-- Number of distinct transcripts present in both frames. -/
def commonCount (ann : List AnnRow) (expr : List ExprRow) : Nat :=
  (transcriptsOf (filteredExpr ann expr)).length

/-- Python slice `l[s:e]` in the validated case `0 ≤ s < e ≤ len l`. -/
def pySlice (l : List String) (s e : Int) : List String :=
  (l.drop s.toNat).take (e - s).toNat

/-- The window of transcripts chosen from the sorted order: mirrors the
`top_n` / `range_slice` branch ladder of the source, including the
fall-back to the full list on invalid input.  The range branch evaluates
Python's chained `0 <= start < end and end <= total` left to right with
short-circuiting: a non-integer entry reached by the comparison chain
raises an uncaught TypeError, modeled as an error result. -/
def transcriptsToKeep (ids : List String) (top_n : Option PyTopN)
    (range_slice : Option (Int × Int)) : Except String (List String) :=
  match top_n with
  | some v =>
    match v with
    | PyTopN.list xs =>
      match xs with
      | [s, e] =>
        match s with
        | PyEntry.str _ => Except.error typeErrorMsg
        | PyEntry.int sv =>
          if 0 ≤ sv then
            match e with
            | PyEntry.str _ => Except.error typeErrorMsg
            | PyEntry.int ev =>
              if sv < ev then
                if ev ≤ (ids.length : Int) then Except.ok (pySlice ids sv ev)
                else Except.ok ids
              else Except.ok ids
          else Except.ok ids
      | _ => Except.ok ids
    | PyTopN.int n =>
      Except.ok
        (if 0 < n then (if n < (ids.length : Int) then ids.take n.toNat else ids)
         else ids)
    | PyTopN.other => Except.ok ids
  | none =>
    match range_slice with
    | some (s, e) =>
      if 0 ≤ s ∧ s < e ∧ e ≤ (ids.length : Int) then Except.ok (pySlice ids s e)
      else Except.ok ids
    | none => Except.ok ids

/-- The window actually kept for given input frames (or the escaping
TypeError). -/
def keepList (ann : List AnnRow) (expr : List ExprRow) (top_n : Option PyTopN)
    (range_slice : Option (Int × Int)) : Except String (List String) :=
  transcriptsToKeep (orderedIds ann expr) top_n range_slice

/-- Final sort key on expression rows: total expression ascending,
transcript id ascending. -/
def ascExprLE (fexpr : List ExprRow) (r1 r2 : ExprRow) : Prop :=
  totalExpr fexpr r1.transcript_id < totalExpr fexpr r2.transcript_id ∨
    (totalExpr fexpr r1.transcript_id = totalExpr fexpr r2.transcript_id ∧
      strLE r1.transcript_id r2.transcript_id = true)

instance (fexpr : List ExprRow) : DecidableRel (ascExprLE fexpr) := fun _ _ =>
  inferInstanceAs (Decidable (_ ∨ (_ ∧ _)))

instance (fexpr : List ExprRow) : IsTotal ExprRow (ascExprLE fexpr) where
  total a b := by
    rcases Int.lt_trichotomy (totalExpr fexpr a.transcript_id) (totalExpr fexpr b.transcript_id)
      with h | h | h
    · left; exact Or.inl h
    · rcases strLE_total a.transcript_id b.transcript_id with hs | hs
      · left; exact Or.inr ⟨h, hs⟩
      · right; exact Or.inr ⟨h.symm, hs⟩
    · right; exact Or.inl h

instance (fexpr : List ExprRow) : IsTrans ExprRow (ascExprLE fexpr) where
  trans a b c hab hbc := by
    rcases hab with h1 | ⟨he1, hs1⟩
    · rcases hbc with h2 | ⟨he2, hs2⟩
      · exact Or.inl (Int.lt_trans h1 h2)
      · exact Or.inl (he2 ▸ h1)
    · rcases hbc with h2 | ⟨he2, hs2⟩
      · exact Or.inl (he1 ▸ h2)
      · exact Or.inr ⟨he1.trans he2, strLE_trans hs1 hs2⟩

/-- Final sort key on annotation rows. -/
def ascAnnLE (fexpr : List ExprRow) (r1 r2 : AnnRow) : Prop :=
  totalExpr fexpr r1.transcript_id < totalExpr fexpr r2.transcript_id ∨
    (totalExpr fexpr r1.transcript_id = totalExpr fexpr r2.transcript_id ∧
      strLE r1.transcript_id r2.transcript_id = true)

instance (fexpr : List ExprRow) : DecidableRel (ascAnnLE fexpr) := fun _ _ =>
  inferInstanceAs (Decidable (_ ∨ (_ ∧ _)))

instance (fexpr : List ExprRow) : IsTotal AnnRow (ascAnnLE fexpr) where
  total a b := by
    rcases Int.lt_trichotomy (totalExpr fexpr a.transcript_id) (totalExpr fexpr b.transcript_id)
      with h | h | h
    · left; exact Or.inl h
    · rcases strLE_total a.transcript_id b.transcript_id with hs | hs
      · left; exact Or.inr ⟨h, hs⟩
      · right; exact Or.inr ⟨h.symm, hs⟩
    · right; exact Or.inl h

instance (fexpr : List ExprRow) : IsTrans AnnRow (ascAnnLE fexpr) where
  trans a b c hab hbc := by
    rcases hab with h1 | ⟨he1, hs1⟩
    · rcases hbc with h2 | ⟨he2, hs2⟩
      · exact Or.inl (Int.lt_trans h1 h2)
      · exact Or.inl (he2 ▸ h1)
    · rcases hbc with h2 | ⟨he2, hs2⟩
      · exact Or.inl (he1 ▸ h2)
      · exact Or.inr ⟨he1.trans he2, strLE_trans hs1 hs2⟩

/-- The join/filter/final-sort tail of `order_transcripts_by_expression`
for an already chosen window: join the totals back, filter to the window,
re-sort ascending by total then id, and drop the injected helper column
(the typed input frames never carry one, so it is always dropped). -/
def orderedFrames (ann : List AnnRow) (expr : List ExprRow) (keep : List String) :
    List ExprRow × List AnnRow :=
  (List.insertionSort (ascExprLE (filteredExpr ann expr))
      ((filteredExpr ann expr).filter (fun r => r.transcript_id ∈ keep)),
   List.insertionSort (ascAnnLE (filteredExpr ann expr))
      ((filteredAnn ann expr).filter (fun r => r.transcript_id ∈ keep)))

/-- Shallow embedding of `order_transcripts_by_expression`: filter both
frames to the common transcripts, aggregate and sort by total expression
(descending, id tie-break), select the `top_n` window — where a TypeError
escaping the range validation propagates to the caller as a failure — and
produce the re-sorted `(expression, annotation)` frames. -/
def order_transcripts_by_expression (ann : List AnnRow) (expr : List ExprRow)
    (top_n : Option PyTopN) (range_slice : Option (Int × Int)) :
    Except String (List ExprRow × List AnnRow) :=
  match keepList ann expr top_n range_slice with
  | Except.error e => Except.error e
  | Except.ok keep => Except.ok (orderedFrames ann expr keep)

end PolarsUtils

namespace DbUtils

/-- A database table: ordered column names and rows of positional text
values. -/
structure Table where
  cols : List String
  rows : List (List String)
  deriving DecidableEq, Repr

/-- A materialized query result (pandas/polars frame): column names and rows
whose entries may be NULL (`none`), as produced by a LEFT JOIN. -/
structure Frame where
  cols : List String
  rows : List (List (Option String))
  deriving DecidableEq, Repr

/-- The relational store: the `transcript_annotation` table projected to its
`(gene_id, gene_name)` pairs (the only columns the embedded queries read
from it), and the named tables (matrix tables and `metadata`). -/
structure DB where
  annotation_rows : List (String × String)
  tables : List (String × Table)
  deriving DecidableEq, Repr

/-- The module-level mutable globals of `db_utils`, as one state record.
`engineDisposed` stands for the observable state of the SQLAlchemy engine
(`pg_engine`), which `clear_cache` must not touch. -/
structure DbState where
  GENE_INFO_CACHE : List (String × (String × String))
  MATRIX_DATA_CACHE : List (String × Frame)
  SEARCH_RESULTS_CACHE : List (String × String)
  ALL_GENES : List (String × String)
  GENE_INDEX_LOADED : Bool
  GENE_INDEX_LOADING : Bool
  engineDisposed : Bool
  deriving DecidableEq, Repr

/-- The initial state of the module globals. -/
def initState : DbState :=
  { GENE_INFO_CACHE := [], MATRIX_DATA_CACHE := [], SEARCH_RESULTS_CACHE := []
    ALL_GENES := [], GENE_INDEX_LOADED := false, GENE_INDEX_LOADING := false
    engineDisposed := false }

/-- Resolve a table by name, as the database does when a query references
`FROM table_name`; an unknown name makes the query fail. -/
def lookupTable (db : DB) (name : String) : Option Table :=
  (db.tables.find? (fun kv => kv.1 = name)).map (fun kv => kv.2)

/-- The `information_schema.columns` introspection query: returns the column
list of the table, or no rows (an empty list, not an error) when the table
does not exist. -/
def infoSchemaCols (db : DB) (name : String) : List String :=
  match lookupTable db name with
  | some t => t.cols
  | none => []

/-- Python `str.lower`. -/
def pyLower (s : String) : String := String.mk (s.data.map Char.toLower)

/-- Python `str.startswith` / SQL `LIKE needle || percent`. -/
def pyStartsWith (s p : String) : Bool := p.data.isPrefixOf s.data

/-- Python `in` on strings / SQL `LIKE` with the pattern wrapped in
percent signs. -/
def pyContains (s sub : String) : Bool :=
  (List.range (s.data.length + 1)).any (fun i => sub.data.isPrefixOf (s.data.drop i))

/-- SQL `SELECT DISTINCT gene_id, gene_name FROM transcript_annotation
ORDER BY gene_name`: distinct pairs sorted by gene name (scan order among
equal names). -/
def nameLE (a b : String × String) : Prop := strLE a.2 b.2 = true

instance : DecidableRel nameLE := fun _ _ => inferInstanceAs (Decidable (_ = true))

instance : IsTotal (String × String) nameLE where
  total a b := strLE_total a.2 b.2

instance : IsTrans (String × String) nameLE where
  trans _ _ _ hab hbc := strLE_trans hab hbc

/-- Result of the gene-index query. -/
def annotationDistinctOrdered (db : DB) : List (String × String) :=
  List.insertionSort nameLE (dedupByKey id db.annotation_rows)

/-- Background loader `_load_gene_index_thread`, run to completion: it
declares all three globals and publishes the deduplicated gene list. -/
def _load_gene_index_thread (db : DB) (st : DbState) : DbState :=
  { st with
    ALL_GENES := dedupByKey Prod.fst (annotationDistinctOrdered db)
    GENE_INDEX_LOADED := true
    GENE_INDEX_LOADING := false }

/-- Synchronous accessor `_load_gene_index`.  The source declares only
`GENE_INDEX_LOADED` and `GENE_INDEX_LOADING` in its `global` statement, so
the assignment `ALL_GENES = [...]` in its body binds a function-local
variable and the module-level `ALL_GENES` is left untouched; the embedding
reproduces that by keeping `st.ALL_GENES`.  The busy-wait branch (a load is
already in flight) returns with the state unchanged; the completion of the
background thread is outside this sequential model. -/
def _load_gene_index (db : DB) (st : DbState) : DbState :=
  if st.GENE_INDEX_LOADED then st
  else if st.GENE_INDEX_LOADING then st
  else
    let _local_ALL_GENES := dedupByKey Prod.fst (annotationDistinctOrdered db)
    { st with GENE_INDEX_LOADED := true }

/-- A dropdown option `{label, value}` produced by the search functions. -/
structure SearchOption where
  label : String
  value : String
  deriving DecidableEq, Repr

/-- The option-format conversion applied to `(gene_id, gene_name)` pairs. -/
def toOptions (l : List (String × String)) : List SearchOption :=
  l.map (fun g => { label := g.2 ++ " (" ++ g.1 ++ ")", value := g.1 })

/-- Classification predicate of the exact tier (id or name equals the
lower-cased query). -/
def isExactMatch (q : String) (g : String × String) : Bool :=
  pyLower g.1 = q || pyLower g.2 = q

/-- Classification predicate of the prefix tier (not exact; id or name
starts with the query). -/
def isPrefixTier (q : String) (g : String × String) : Bool :=
  !isExactMatch q g && (pyStartsWith (pyLower g.1) q || pyStartsWith (pyLower g.2) q)

/-- Classification predicate of the contains tier (neither exact nor prefix;
id or name contains the query). -/
def isContainsTier (q : String) (g : String × String) : Bool :=
  !isExactMatch q g && !(pyStartsWith (pyLower g.1) q || pyStartsWith (pyLower g.2) q) &&
    (pyContains (pyLower g.1) q || pyContains (pyLower g.2) q)

/-- The single categorization pass of `search_genes` over the in-memory
index, with the early break once ten exact matches are collected (checked
after every processed gene, as in the source loop). -/
def classifyLoop (q : String) (genes : List (String × String))
    (ex pre con : List (String × String)) :
    List (String × String) × List (String × String) × List (String × String) :=
  match genes with
  | [] => (ex, pre, con)
  | g :: rest =>
    let acc :=
      if isExactMatch q g then (ex ++ [g], pre, con)
      else if isPrefixTier q g then (ex, pre ++ [g], con)
      else if isContainsTier q g then (ex, pre, con ++ [g])
      else (ex, pre, con)
    if 10 ≤ acc.1.length then acc
    else classifyLoop q rest acc.1 acc.2.1 acc.2.2

/-- The merge step of `search_genes`: exact matches first, then prefix
matches up to the cap, then contains matches up to the cap, then the final
`[:10]` slice applied by the option-building loop. -/
def mergeTiers (ex pre con : List (String × String)) : List (String × String) :=
  ((if ex.length < 10 then ex ++ pre.take (10 - ex.length) else ex) ++
    (if (if ex.length < 10 then ex ++ pre.take (10 - ex.length) else ex).length < 10 then
      con.take (10 - (if ex.length < 10 then ex ++ pre.take (10 - ex.length) else ex).length)
    else [])).take 10

/-- The merged, capped result list of the in-memory search (still as
`(gene_id, gene_name)` pairs, before the option-format conversion). -/
def searchInMemory (q : String) (genes : List (String × String)) :
    List (String × String) :=
  mergeTiers (classifyLoop q genes [] [] []).1 (classifyLoop q genes [] [] []).2.1
    (classifyLoop q genes [] [] []).2.2

/-- The `CASE` rank of the long-query database search: exact id 1, exact
name 2, prefix id 3, prefix name 4, else 5. -/
def matchRank (q : String) (g : String × String) : Nat :=
  if pyLower g.1 = q then 1
  else if pyLower g.2 = q then 2
  else if pyStartsWith (pyLower g.1) q then 3
  else if pyStartsWith (pyLower g.2) q then 4
  else 5

/-- `ORDER BY match_rank, gene_name` of the ranked database search. -/
def rankNameLE (q : String) (a b : String × String) : Prop :=
  matchRank q a < matchRank q b ∨ (matchRank q a = matchRank q b ∧ strLE a.2 b.2 = true)

instance (q : String) : DecidableRel (rankNameLE q) := fun _ _ =>
  inferInstanceAs (Decidable (_ ∨ (_ ∧ _)))

instance (q : String) : IsTotal (String × String) (rankNameLE q) where
  total a b := by
    rcases Nat.lt_trichotomy (matchRank q a) (matchRank q b) with h | h | h
    · left; exact Or.inl h
    · rcases strLE_total a.2 b.2 with hs | hs
      · left; exact Or.inr ⟨h, hs⟩
      · right; exact Or.inr ⟨h.symm, hs⟩
    · right; exact Or.inl h

instance (q : String) : IsTrans (String × String) (rankNameLE q) where
  trans a b c hab hbc := by
    rcases hab with h1 | ⟨he1, hs1⟩
    · rcases hbc with h2 | ⟨he2, hs2⟩
      · exact Or.inl (Nat.lt_trans h1 h2)
      · exact Or.inl (he2 ▸ h1)
    · rcases hbc with h2 | ⟨he2, hs2⟩
      · exact Or.inl (he1 ▸ h2)
      · exact Or.inr ⟨he1.trans he2, strLE_trans hs1 hs2⟩

/-- Rows selected by the short-query database search (prefix `LIKE` on the
lower-cased id or name), distinct pairs in scan order — the query has no
ORDER BY — limited to 10. -/
def shortQueryPairs (db : DB) (q : String) : List (String × String) :=
  (dedupByKey id (db.annotation_rows.filter
    (fun g => pyStartsWith (pyLower g.1) (pyLower q) || pyStartsWith (pyLower g.2) (pyLower q)))).take 10

/-- Rows selected by the long-query ranked database search: distinct pairs
matching the contains pattern, ordered by rank then name, limited to 10. -/
def rankedQueryPairs (db : DB) (q : String) : List (String × String) :=
  (List.insertionSort (rankNameLE (pyLower q))
    (dedupByKey id (db.annotation_rows.filter
      (fun g => pyContains (pyLower g.1) (pyLower q) || pyContains (pyLower g.2) (pyLower q))))).take 10

/-- Shallow embedding of `_search_genes_database`: prefix-only query for
searches under three characters, ranked query otherwise. -/
def _search_genes_database (db : DB) (search_value : String) : List SearchOption :=
  if search_value.length < 3 then toOptions (shortQueryPairs db search_value)
  else toOptions (rankedQueryPairs db search_value)

/-- Shallow embedding of `search_genes`: empty query returns no options;
otherwise ensure the index is loaded, fall back to the database search when
the in-memory list is empty, and otherwise run the tiered in-memory
search. -/
def search_genes (db : DB) (st : DbState) (search_value : String) :
    List SearchOption × DbState :=
  if search_value = "" then ([], st)
  else
    let st1 := if st.GENE_INDEX_LOADED then st else _load_gene_index db st
    if st1.ALL_GENES = [] then (_search_genes_database db search_value, st1)
    else (toOptions (searchInMemory (pyLower search_value) st1.ALL_GENES), st1)

end DbUtils

namespace DbUtils

/-- Positional lookup of a column value in a table row. -/
def rowVal (cols : List String) (row : List String) (c : String) : Option String :=
  (cols.indexOf? c).bind (fun i => row.get? i)

/-- LEFT JOIN of the expression rows of one gene with the metadata rows on
`g.sample_id = m.sample_and_flowcell_id`: every matching metadata row
produces one output row, and a gene row without any match is padded with
NULLs for the selected metadata columns. -/
def leftJoinRows (g m : Table) (meta_sel : List String) (gene_id : String) :
    List (List (Option String)) :=
  (g.rows.filter (fun r => rowVal g.cols r ("gene_id") = some gene_id)).flatMap (fun r =>
    let ms := m.rows.filter
      (fun mr => rowVal m.cols mr ("sample_and_flowcell_id") = rowVal g.cols r ("sample_id"))
    match ms with
    | [] => [r.map some ++ meta_sel.map (fun _ => none)]
    | _ => ms.map (fun mr => r.map some ++ meta_sel.map (fun c => rowVal m.cols mr c)))

/-- The joined query of `get_gene_data_with_metadata`: introspect both column
lists, select every expression-table column and every metadata column except
the join key, LEFT JOIN on the sample identifier, filter by gene and apply
the row limit.  The query fails when a referenced relation does not exist,
when a select list comes out empty (the built SQL text is then malformed),
or when a referenced join/filter column is missing — the schema-drift
failure modes of the string-built SQL. -/
def runJoinedQuery (db : DB) (table_name gene_id : String) (lim : Nat) :
    Except String Frame :=
  let gene_cols := infoSchemaCols db table_name
  let meta_cols := infoSchemaCols db ("metadata")
  let meta_sel := meta_cols.filter (fun c => c ≠ "sample_and_flowcell_id")
  match lookupTable db table_name, lookupTable db ("metadata") with
  | none, _ => Except.error ("relation " ++ table_name ++ " does not exist")
  | some _, none => Except.error ("relation metadata does not exist")
  | some g, some m =>
    if gene_cols.isEmpty || meta_sel.isEmpty then
      Except.error ("syntax error in joined query")
    else if !(g.cols.contains ("sample_id")) || !(g.cols.contains ("gene_id")) ||
        !(m.cols.contains ("sample_and_flowcell_id")) then
      Except.error ("column referenced by the joined query does not exist")
    else
      Except.ok { cols := gene_cols ++ meta_sel
                  rows := (leftJoinRows g m meta_sel gene_id).take lim }

/-- The simplified fallback query `SELECT * FROM table WHERE gene_id = ...
LIMIT ...`, run when the joined query raised. -/
def fallbackQuery (db : DB) (table_name gene_id : String) (lim : Nat) :
    Except String Frame :=
  match lookupTable db table_name with
  | none => Except.error ("relation " ++ table_name ++ " does not exist")
  | some t =>
    if !(t.cols.contains ("gene_id")) then
      Except.error ("column gene_id does not exist")
    else
      Except.ok { cols := t.cols
                  rows := ((t.rows.filter
                    (fun r => rowVal t.cols r ("gene_id") = some gene_id)).take lim).map
                      (fun r => r.map some) }

/-- The composite cache key of `get_gene_data_with_metadata`. -/
def cacheKey (gene_id table_name : String) (lim : Nat) (with_polars : Bool) : String :=
  gene_id ++ "_" ++ table_name ++ "_" ++ toString lim ++ "_" ++
    (if with_polars then "True" else "False")

/-- The message of the exception raised when the gene id is absent. -/
def notFoundMsg (gene_id : String) : String :=
  "Gene ID " ++ gene_id ++ " not found in annotation table"

/-- The combined error raised when the fallback query also fails. -/
def combinedMsg (origErr fallbackErr : String) : String :=
  "Error getting gene data: Original error: " ++ origErr ++
    ", Fallback error: " ++ fallbackErr

/-- The except-branch of `get_gene_data_with_metadata`: one fallback attempt;
on success the plain frame is returned, on failure the combined error is
raised.  The third component counts database queries executed so far. -/
def fallbackStep (db : DB) (st : DbState) (gene_id table_name : String)
    (lim n : Nat) (origErr : String) : Except String Frame × DbState × Nat :=
  match fallbackQuery db table_name gene_id lim with
  | Except.ok df => (Except.ok df, st, n + 1)
  | Except.error fe => (Except.error (combinedMsg origErr fe), st, n + 1)

/-- The joined query attempt (two introspection queries plus the join), with
the fallback taken on failure. -/
def joinedStep (db : DB) (st : DbState) (gene_id table_name : String)
    (lim n : Nat) : Except String Frame × DbState × Nat :=
  match runJoinedQuery db table_name gene_id lim with
  | Except.ok df => (Except.ok df, st, n + 3)
  | Except.error e => fallbackStep db st gene_id table_name lim (n + 3) e

/-- The try/except body of `get_gene_data_with_metadata`: resolve the gene
through `GENE_INFO_CACHE` (populating it on a hit in the annotation table),
raise the not-found exception when the gene is absent — an exception the
enclosing except-branch immediately catches, sending it into the fallback
query — and otherwise run the joined query with fallback. -/
def fetchGeneData (db : DB) (st : DbState) (gene_id table_name : String)
    (lim : Nat) : Except String Frame × DbState × Nat :=
  match st.GENE_INFO_CACHE.find? (fun kv => kv.1 = gene_id) with
  | some _ => joinedStep db st gene_id table_name lim 0
  | none =>
    match db.annotation_rows.find? (fun r => r.1 = gene_id) with
    | none => fallbackStep db st gene_id table_name lim 1 (notFoundMsg gene_id)
    | some row =>
      joinedStep db
        { st with GENE_INFO_CACHE := st.GENE_INFO_CACHE ++ [(gene_id, row)] }
        gene_id table_name lim 1

/-- Shallow embedding of `get_gene_data_with_metadata`: return the cached
frame on a `MATRIX_DATA_CACHE` hit without touching the database, otherwise
run the try/except body and cache the frame on success (failures are not
cached). -/
def get_gene_data_with_metadata (db : DB) (st : DbState)
    (gene_id table_name : String) (with_polars : Bool) (lim : Nat) :
    Except String Frame × DbState × Nat :=
  match st.MATRIX_DATA_CACHE.find?
      (fun kv => kv.1 = cacheKey gene_id table_name lim with_polars) with
  | some kv => (Except.ok kv.2, st, 0)
  | none =>
    match fetchGeneData db st gene_id table_name lim with
    | (Except.ok df, st2, n) =>
      (Except.ok df,
       { st2 with MATRIX_DATA_CACHE :=
          st2.MATRIX_DATA_CACHE ++ [(cacheKey gene_id table_name lim with_polars, df)] }, n)
    | (Except.error e, st2, n) => (Except.error e, st2, n)

/-- Shallow embedding of `clear_cache`: reset the three caches, the gene
list and the loaded flag; the loading flag and the engine are left alone. -/
def clear_cache (st : DbState) : DbState :=
  { st with
    GENE_INFO_CACHE := []
    MATRIX_DATA_CACHE := []
    SEARCH_RESULTS_CACHE := []
    ALL_GENES := []
    GENE_INDEX_LOADED := false }

end DbUtils

open PolarsUtils DbUtils

/-- A representative expression matrix table. -/
def tblFix : Table :=
  { cols := ["sample_id", "gene_id", "transcript_id", "counts"]
    rows := [["S1", "G1", "T1", "5"]] }

/-- A representative metadata table. -/
def metaFix : Table :=
  { cols := ["sample_and_flowcell_id", "diagnosis"], rows := [["S1", "AD"]] }

/-- A consistent database with one gene, one matrix table and metadata. -/
def dbFix : DB :=
  { annotation_rows := [("G1", "GENE1")]
    tables := [("total_transcript_data", tblFix), ("metadata", metaFix)] }

/-- C1: for a gene id absent from the annotation table (and from both
caches), `get_gene_data_with_metadata` raises the not-found exception inside
its own `try` block, so the `except` branch catches it and runs the fallback
query; with an intact matrix table the fallback succeeds and the call
returns an empty frame to the caller instead of failing.  This contradicts
the docstring of the function (Raises ... if the gene is not found) and the
spec; evaluation of the embedding at the failing input. -/
theorem gene_absent_returns_empty_frame :
    (get_gene_data_with_metadata dbFix initState ("G9") ("total_transcript_data") true 100).1 =
      Except.ok { cols := ["sample_id", "gene_id", "transcript_id", "counts"], rows := [] } := by
  rfl

/-- C2: the synchronous load path of `_load_gene_index` omits `ALL_GENES`
from its `global` declaration, so a successful load (the database holds one
gene here) sets `GENE_INDEX_LOADED` but leaves the process-wide `ALL_GENES`
empty, and the next `search_genes` call therefore delegates to the database
fallback rather than the in-memory index.  This contradicts the function's
stated purpose (and the properly declared background-thread variant);
evaluation of the embedding at the failing input. -/
theorem sync_load_leaves_index_empty :
    (_load_gene_index dbFix initState).ALL_GENES = [] ∧
    (_load_gene_index dbFix initState).GENE_INDEX_LOADED = true ∧
    (search_genes dbFix (_load_gene_index dbFix initState) ("gene1")).1 =
      _search_genes_database dbFix ("gene1") := by
  refine ⟨rfl, rfl, rfl⟩

/-- The annotation frame of the C4 scenario: transcripts T1, T2, T3. -/
def annC4 : List AnnRow :=
  [{ transcript_id := "T1", exon_number := 1 },
   { transcript_id := "T2", exon_number := 1 },
   { transcript_id := "T3", exon_number := 1 }]

/-- The expression frame of the C4 scenario: totals T1 = 50, T2 = 50,
T3 = 10. -/
def exprC4 : List ExprRow :=
  [{ sample_id := "S1", transcript_id := "T1", value := 50 },
   { sample_id := "S1", transcript_id := "T2", value := 50 },
   { sample_id := "S1", transcript_id := "T3", value := 10 }]

/-- The expression frame the C4 scenario returns. -/
def exprOutC4 : List ExprRow :=
  [{ sample_id := "S1", transcript_id := "T1", value := 50 },
   { sample_id := "S1", transcript_id := "T2", value := 50 }]

/-- The annotation frame the C4 scenario returns. -/
def annOutC4 : List AnnRow :=
  [{ transcript_id := "T1", exon_number := 1 },
   { transcript_id := "T2", exon_number := 1 }]

/-- C4 counterexample: with annotation transcripts T1, T2, T3, totals
T1 = 50, T2 = 50, T3 = 10 and `top_n = 2`, the call returns exactly the
frames `exprOutC4`/`annOutC4`, whose transcript order is not T2 then T1:
the final ascending sort breaks the total-expression tie by ascending
transcript id, so T1 comes first. -/
theorem order_transcripts_scenario_not_T2_T1 :
    (order_transcripts_by_expression annC4 exprC4 (some (PyTopN.int 2)) none =
      Except.ok (exprOutC4, annOutC4)) ∧
    exprOutC4.map (fun r => r.transcript_id) ≠ [("T2"), ("T1")] := by
  exact ⟨by rfl, by decide⟩

/-- C4 amended: the same scenario returns the transcript set containing
exactly T1 and T2, ordered T1 then T2 in both returned frames (the final
sort orders ties by ascending transcript id, not by the order of the
initial descending pass). -/
theorem order_transcripts_scenario_T1_T2 :
    (order_transcripts_by_expression annC4 exprC4 (some (PyTopN.int 2)) none =
      Except.ok (exprOutC4, annOutC4)) ∧
    exprOutC4.map (fun r => r.transcript_id) = [("T1"), ("T2")] ∧
    annOutC4.map (fun r => r.transcript_id) = [("T1"), ("T2")] := by
  exact ⟨by rfl, by decide, by decide⟩

/-- C10: `clear_cache` resets the three caches to empty, the gene list to
empty and the loaded flag to false, while leaving the loading flag and the
engine untouched. -/
theorem clear_cache_resets_and_preserves (st : DbState) :
    (clear_cache st).GENE_INFO_CACHE = [] ∧
    (clear_cache st).MATRIX_DATA_CACHE = [] ∧
    (clear_cache st).SEARCH_RESULTS_CACHE = [] ∧
    (clear_cache st).ALL_GENES = [] ∧
    (clear_cache st).GENE_INDEX_LOADED = false ∧
    (clear_cache st).GENE_INDEX_LOADING = st.GENE_INDEX_LOADING ∧
    (clear_cache st).engineDisposed = st.engineDisposed :=
  ⟨rfl, rfl, rfl, rfl, rfl, rfl, rfl⟩

/-- The matrix table of the no-metadata scenario: it happens to carry a
`diagnosis` column of its own. -/
def tblNoMeta : Table :=
  { cols := ["sample_id", "gene_id", "diagnosis"], rows := [["S1", "G1", "AD"]] }

/-- A database whose `metadata` table is missing, so the joined query fails
while `SELECT * FROM total_transcript_data` still succeeds. -/
def dbNoMeta : DB :=
  { annotation_rows := [("G1", "GENE1")]
    tables := [("total_transcript_data", tblNoMeta)] }

/-- A healthy database whose joined query produces, for gene G1, exactly the
same frame as the fallback query does in `dbNoMeta`. -/
def dbJoinOk : DB :=
  { annotation_rows := [("G1", "GENE1")]
    tables := [("total_transcript_data",
      { cols := ["sample_id", "gene_id"], rows := [["S1", "G1"]] }), ("metadata", metaFix)] }

/-- C3 counterexample: in `dbNoMeta` the joined query fails and the fallback
succeeds, yet the value `get_gene_data_with_metadata` returns is bit-for-bit
identical to the value it returns in `dbJoinOk`, where the joined query
succeeds.  The degraded result therefore carries no "no metadata join"
marker of any kind — the fallback frame is returned as-is, and a caller
cannot tell it apart from a fully joined result. -/
theorem fallback_result_carries_no_marker :
    (runJoinedQuery dbNoMeta ("total_transcript_data") ("G1") 100).isOk = false ∧
    (fallbackQuery dbNoMeta ("total_transcript_data") ("G1") 100).isOk = true ∧
    (runJoinedQuery dbJoinOk ("total_transcript_data") ("G1") 100).isOk = true ∧
    (get_gene_data_with_metadata dbNoMeta initState ("G1") ("total_transcript_data") true 100).1 =
      (get_gene_data_with_metadata dbJoinOk initState ("G1") ("total_transcript_data") true 100).1 := by
  refine ⟨rfl, rfl, rfl, rfl⟩


/-- Column list of a successful fallback query: exactly the columns of the
expression table. -/
theorem fallbackQuery_cols {db : DB} {table_name gene_id : String} {lim : Nat}
    {t : Table} {df : Frame} (ht : lookupTable db table_name = some t)
    (h : fallbackQuery db table_name gene_id lim = Except.ok df) : df.cols = t.cols := by
  unfold fallbackQuery at h
  rw [ht] at h
  dsimp only at h
  split at h
  · simp at h
  · cases h
    rfl

/-- Result of the try/except body when the gene resolves but the joined
query fails: the fallback result on success, the combined error message on
failure. -/
theorem fetch_result_of_joined_error (db : DB) (st : DbState)
    (gene_id table_name : String) (lim : Nat) (e : String)
    (hgene : (st.GENE_INFO_CACHE.find? (fun kv => kv.1 = gene_id)).isSome = true ∨
      (db.annotation_rows.find? (fun r => r.1 = gene_id)).isSome = true)
    (hj : runJoinedQuery db table_name gene_id lim = Except.error e) :
    (fetchGeneData db st gene_id table_name lim).1 =
      (match fallbackQuery db table_name gene_id lim with
       | Except.ok df => Except.ok df
       | Except.error fe => Except.error (combinedMsg e fe)) := by
  unfold fetchGeneData
  cases hcache : st.GENE_INFO_CACHE.find? (fun kv => kv.1 = gene_id) with
  | some v =>
    dsimp only
    unfold joinedStep
    rw [hj]
    unfold fallbackStep
    cases hfb : fallbackQuery db table_name gene_id lim <;> dsimp only
  | none =>
    rcases hgene with hg | hg
    · rw [hcache] at hg
      simp at hg
    · rcases Option.isSome_iff_exists.mp hg with ⟨v, hv⟩
      rw [hv]
      dsimp only
      unfold joinedStep
      rw [hj]
      unfold fallbackStep
      cases hfb : fallbackQuery db table_name gene_id lim <;> dsimp only

/-- C3 amended: when the joined query fails with error `e` (the gene itself
being resolvable and the call not served from the cache), the function
returns the fallback result untouched — no metadata-less marker is attached,
and on success the returned frame has exactly the expression table's
columns; when the fallback also fails, the raised error is the combined
message naming both failures. -/
theorem fallback_plain_frame_or_combined_error (db : DB) (st : DbState)
    (gene_id table_name : String) (wp : Bool) (lim : Nat) (t : Table) (e : String)
    (hck : st.MATRIX_DATA_CACHE.find?
      (fun kv => kv.1 = cacheKey gene_id table_name lim wp) = none)
    (hgene : (st.GENE_INFO_CACHE.find? (fun kv => kv.1 = gene_id)).isSome = true ∨
      (db.annotation_rows.find? (fun r => r.1 = gene_id)).isSome = true)
    (hj : runJoinedQuery db table_name gene_id lim = Except.error e)
    (ht : lookupTable db table_name = some t) :
    (∀ df, fallbackQuery db table_name gene_id lim = Except.ok df →
      (get_gene_data_with_metadata db st gene_id table_name wp lim).1 = Except.ok df ∧
        df.cols = t.cols) ∧
    (∀ fe, fallbackQuery db table_name gene_id lim = Except.error fe →
      (get_gene_data_with_metadata db st gene_id table_name wp lim).1 =
        Except.error (combinedMsg e fe)) := by
  have hbody := fetch_result_of_joined_error db st gene_id table_name lim e hgene hj
  constructor
  · intro df hfb
    rw [hfb] at hbody
    dsimp only at hbody
    refine ⟨?_, fallbackQuery_cols ht hfb⟩
    unfold get_gene_data_with_metadata
    rw [hck]
    rcases hfe : fetchGeneData db st gene_id table_name lim with ⟨r, st2, n⟩
    rw [hfe] at hbody
    dsimp only at hbody
    subst hbody
    rfl
  · intro fe hfb
    rw [hfb] at hbody
    dsimp only at hbody
    unfold get_gene_data_with_metadata
    rw [hck]
    rcases hfe : fetchGeneData db st gene_id table_name lim with ⟨r, st2, n⟩
    rw [hfe] at hbody
    dsimp only at hbody
    subst hbody
    rfl

/-- Witness for the C3 amended theorem: in the no-metadata database the call
returns the plain fallback frame, whose columns are exactly the expression
table's. -/
theorem fallback_plain_frame_witness :
    (get_gene_data_with_metadata dbNoMeta initState ("G1") ("total_transcript_data") true 100).1 =
      Except.ok { cols := ["sample_id", "gene_id", "diagnosis"]
                  rows := [[some ("S1"), some ("G1"), some ("AD")]] } ∧
    ({ cols := ["sample_id", "gene_id", "diagnosis"]
       rows := [[some ("S1"), some ("G1"), some ("AD")]] } : Frame).cols = tblNoMeta.cols :=
  (fallback_plain_frame_or_combined_error dbNoMeta initState ("G1") ("total_transcript_data")
    true 100 tblNoMeta ("relation metadata does not exist") rfl (Or.inr rfl) rfl rfl).1 _ rfl

/-- Helper: `find?` skips a block known to contain no match. -/
theorem find?_append_of_none {α : Type} {p : α → Bool} {l1 l2 : List α}
    (h : l1.find? p = none) : (l1 ++ l2).find? p = l2.find? p := by
  induction l1 with
  | nil => rfl
  | cons a as ih =>
    cases hpa : p a with
    | true => simp [List.find?, hpa] at h
    | false =>
      simp only [List.find?, hpa] at h
      simpa [List.find?, hpa] using ih h

/-- The except-branch never mutates the state record. -/
theorem fallbackStep_state (db : DB) (st : DbState) (gene_id table_name : String)
    (lim n : Nat) (origErr : String) :
    (fallbackStep db st gene_id table_name lim n origErr).2.1 = st := by
  unfold fallbackStep
  cases hfb : fallbackQuery db table_name gene_id lim <;> rfl

/-- The joined attempt leaves the state it is given unchanged. -/
theorem joinedStep_state (db : DB) (st : DbState) (gene_id table_name : String)
    (lim n : Nat) : (joinedStep db st gene_id table_name lim n).2.1 = st := by
  unfold joinedStep
  cases hj : runJoinedQuery db table_name gene_id lim with
  | ok df => rfl
  | error e => exact fallbackStep_state db st gene_id table_name lim (n + 3) e

/-- The try/except body touches `GENE_INFO_CACHE` only: `MATRIX_DATA_CACHE`
is unchanged when it returns. -/
theorem fetch_matrix_cache_unchanged (db : DB) (st : DbState)
    (gene_id table_name : String) (lim : Nat) :
    ((fetchGeneData db st gene_id table_name lim).2.1).MATRIX_DATA_CACHE =
      st.MATRIX_DATA_CACHE := by
  unfold fetchGeneData
  cases hcache : st.GENE_INFO_CACHE.find? (fun kv => kv.1 = gene_id) with
  | some v => dsimp only; rw [joinedStep_state]
  | none =>
    cases hann : db.annotation_rows.find? (fun r => r.1 = gene_id) with
    | none => dsimp only; rw [fallbackStep_state]
    | some row => dsimp only; rw [joinedStep_state]

/-- C6: after a successful call, the result is cached under the composite
key, and a second call with identical arguments returns the identical value
out of `MATRIX_DATA_CACHE` while executing zero database queries and leaving
the state unchanged. -/
theorem get_gene_data_idempotent (db : DB) (st : DbState)
    (gene_id table_name : String) (wp : Bool) (lim : Nat)
    (df : Frame) (st1 : DbState) (n : Nat)
    (h : get_gene_data_with_metadata db st gene_id table_name wp lim =
      (Except.ok df, st1, n)) :
    get_gene_data_with_metadata db st1 gene_id table_name wp lim =
      (Except.ok df, st1, 0) := by
  unfold get_gene_data_with_metadata at h ⊢
  cases hfind : st.MATRIX_DATA_CACHE.find?
      (fun kv => kv.1 = cacheKey gene_id table_name lim wp) with
  | some kv =>
    rw [hfind] at h
    dsimp only at h
    simp only [Prod.mk.injEq, Except.ok.injEq] at h
    obtain ⟨h1, h2, h3⟩ := h
    subst h2
    rw [hfind]
    dsimp only
    rw [h1]
  | none =>
    rw [hfind] at h
    rcases hfe : fetchGeneData db st gene_id table_name lim with ⟨r, st2, m⟩
    rw [hfe] at h
    cases r with
    | error e =>
      dsimp only at h
      simp only [Prod.mk.injEq] at h
      exact absurd h.1 (by simp)
    | ok df2 =>
      dsimp only at h
      simp only [Prod.mk.injEq, Except.ok.injEq] at h
      obtain ⟨h1, h2, h3⟩ := h
      subst h1
      have hm : st2.MATRIX_DATA_CACHE = st.MATRIX_DATA_CACHE := by
        have hu := fetch_matrix_cache_unchanged db st gene_id table_name lim
        rw [hfe] at hu
        exact hu
      have hfind1 : st1.MATRIX_DATA_CACHE.find?
          (fun kv => kv.1 = cacheKey gene_id table_name lim wp) =
          some (cacheKey gene_id table_name lim wp, df2) := by
        rw [← h2]
        dsimp only
        rw [hm, find?_append_of_none hfind]
        simp [List.find?]
      rw [hfind1]

/-- The frame the healthy fixture database returns for gene G1. -/
def dfFix : Frame :=
  { cols := ["sample_id", "gene_id", "transcript_id", "counts", "diagnosis"]
    rows := [[some ("S1"), some ("G1"), some ("T1"), some ("5"), some ("AD")]] }

/-- The state after the first successful call on the fixture database. -/
def stAfterFix : DbState :=
  { GENE_INFO_CACHE := [(("G1"), (("G1"), ("GENE1")))]
    MATRIX_DATA_CACHE := [(("G1_total_transcript_data_100_True"), dfFix)]
    SEARCH_RESULTS_CACHE := []
    ALL_GENES := []
    GENE_INDEX_LOADED := false
    GENE_INDEX_LOADING := false
    engineDisposed := false }

/-- Witness for C6 at the fixture database: the second call is a pure cache
hit with zero database queries. -/
theorem get_gene_data_idempotent_witness :
    get_gene_data_with_metadata dbFix stAfterFix ("G1") ("total_transcript_data") true 100 =
      (Except.ok dfFix, stAfterFix, 0) :=
  get_gene_data_idempotent dbFix initState ("G1") ("total_transcript_data") true 100
    dfFix stAfterFix 4 rfl

/-- Length of the sorted transcript list equals the number of common
transcripts. -/
theorem orderedIds_length (ann : List AnnRow) (expr : List ExprRow) :
    (orderedIds ann expr).length = commonCount ann expr := by
  unfold orderedIds commonCount aggregated
  rw [List.length_map, (List.perm_insertionSort descKeyLE _).length_eq, List.length_map]

/-- Validity of a `top_n` value for a given transcript count: a positive
integer, or a two-element range `[s, e]` with `0 ≤ s < e ≤ N`.  Anything
else makes the source fall back to keeping every transcript. -/
def validTopN (N : Nat) : PyTopN → Bool
  | PyTopN.int n => decide (0 < n)
  | PyTopN.list xs =>
    match xs with
    | [PyEntry.int s, PyEntry.int e] => decide (0 ≤ s ∧ s < e ∧ e ≤ (N : Int))
    | _ => false
  | PyTopN.other => false

/-- Whether the range validation raises a TypeError for this `top_n` value:
a two-element list whose first entry is non-integer, or whose first entry
is a non-negative integer and second entry non-integer (Python short
circuiting skips the second comparison when the first one fails). -/
def topNRangeRaises : PyTopN → Bool
  | PyTopN.list xs =>
    match xs with
    | [PyEntry.str _, _] => true
    | [PyEntry.int sv, PyEntry.str _] => decide (0 ≤ sv)
    | _ => false
  | _ => false

/-- C9 counterexample: `top_n = ["a", "b"]` is neither a valid positive
integer nor a valid range, yet `order_transcripts_by_expression` does fail
on it — the range validation compares the string entry against an int and
the resulting TypeError escapes uncaught, instead of the claimed
keep-everything recovery. -/
theorem order_transcripts_str_range_raises :
    validTopN (commonCount annC4 exprC4)
      (PyTopN.list [PyEntry.str ("a"), PyEntry.str ("b")]) = false ∧
    order_transcripts_by_expression annC4 exprC4
      (some (PyTopN.list [PyEntry.str ("a"), PyEntry.str ("b")])) none =
      Except.error typeErrorMsg := by
  exact ⟨by decide, by rfl⟩

/-- C9 amended: an invalid `top_n` value that does not make the range
validation raise (anything but a two-element list reaching a non-integer
entry in the comparison chain) is recovered locally: the full transcript
set is kept and the call behaves exactly as with `top_n = None`; but a
two-element list whose comparison chain reaches a non-integer entry makes
the call fail with the escaping TypeError. -/
theorem order_transcripts_invalid_topn (ann : List AnnRow) (expr : List ExprRow)
    (v : PyTopN) :
    (validTopN (commonCount ann expr) v = false → topNRangeRaises v = false →
      order_transcripts_by_expression ann expr (some v) none =
        order_transcripts_by_expression ann expr none none) ∧
    (topNRangeRaises v = true →
      order_transcripts_by_expression ann expr (some v) none =
        Except.error typeErrorMsg) := by
  constructor
  · intro hval hsafe
    have hkeep : keepList ann expr (some v) none =
        Except.ok (orderedIds ann expr) := by
      unfold keepList transcriptsToKeep
      cases v with
      | int n =>
        unfold validTopN at hval
        simp only [decide_eq_false_iff_not] at hval
        dsimp only
        rw [if_neg hval]
      | other => rfl
      | list xs =>
        match xs with
        | [] => rfl
        | [s] => rfl
        | s :: e :: x :: rest => rfl
        | [s, e] =>
          match s with
          | PyEntry.str s1 => simp [topNRangeRaises] at hsafe
          | PyEntry.int sv =>
            match e with
            | PyEntry.str s2 =>
              unfold topNRangeRaises at hsafe
              simp only [decide_eq_false_iff_not] at hsafe
              dsimp only
              rw [if_neg hsafe]
            | PyEntry.int ev =>
              unfold validTopN at hval
              simp only [decide_eq_false_iff_not] at hval
              dsimp only
              by_cases h1 : 0 ≤ sv
              · rw [if_pos h1]
                by_cases h2 : sv < ev
                · rw [if_pos h2]
                  by_cases h3 : ev ≤ ((orderedIds ann expr).length : Int)
                  · exact absurd ⟨h1, h2, by rw [orderedIds_length] at h3; exact h3⟩ hval
                  · rw [if_neg h3]
                · rw [if_neg h2]
              · rw [if_neg h1]
    have hkeepnone : keepList ann expr none none =
        Except.ok (orderedIds ann expr) := rfl
    unfold order_transcripts_by_expression
    rw [hkeep, hkeepnone]
  · intro hraise
    have hkeep : keepList ann expr (some v) none = Except.error typeErrorMsg := by
      unfold keepList transcriptsToKeep
      cases v with
      | int n => simp [topNRangeRaises] at hraise
      | other => simp [topNRangeRaises] at hraise
      | list xs =>
        match xs with
        | [] => simp [topNRangeRaises] at hraise
        | [s] => simp [topNRangeRaises] at hraise
        | s :: e :: x :: rest => simp [topNRangeRaises] at hraise
        | [s, e] =>
          match s with
          | PyEntry.str s1 => rfl
          | PyEntry.int sv =>
            match e with
            | PyEntry.int ev => simp [topNRangeRaises] at hraise
            | PyEntry.str s2 =>
              unfold topNRangeRaises at hraise
              simp only [decide_eq_true_eq] at hraise
              dsimp only
              rw [if_pos hraise]
    unfold order_transcripts_by_expression
    rw [hkeep]

/-- Witness for the C9 amended theorem: a non-numeric scalar `top_n`
behaves as `top_n = None` on the scenario frames, while a two-element list
of strings makes the call fail with the TypeError. -/
theorem order_transcripts_invalid_topn_witness :
    (order_transcripts_by_expression annC4 exprC4 (some PyTopN.other) none =
      order_transcripts_by_expression annC4 exprC4 none none) ∧
    (order_transcripts_by_expression annC4 exprC4
      (some (PyTopN.list [PyEntry.str ("a"), PyEntry.str ("b")])) none =
      Except.error typeErrorMsg) :=
  ⟨(order_transcripts_invalid_topn annC4 exprC4 PyTopN.other).1 rfl rfl,
   (order_transcripts_invalid_topn annC4 exprC4
     (PyTopN.list [PyEntry.str ("a"), PyEntry.str ("b")])).2 rfl⟩

/-- C8: in both frames returned by `order_transcripts_by_expression`, any
row pair in output order whose transcripts have equal total expression is
ordered by ascending transcript id — the final sort key is
`(total_expression, transcript_id)`, both ascending. -/
theorem order_transcripts_ties_ascending_id (ann : List AnnRow) (expr : List ExprRow)
    (top_n : Option PyTopN) (range_slice : Option (Int × Int))
    (out : List ExprRow × List AnnRow)
    (h : order_transcripts_by_expression ann expr top_n range_slice = Except.ok out) :
    (out.1.Pairwise
      (fun r1 r2 => totalExpr (filteredExpr ann expr) r1.transcript_id =
        totalExpr (filteredExpr ann expr) r2.transcript_id →
          strLE r1.transcript_id r2.transcript_id = true)) ∧
    (out.2.Pairwise
      (fun r1 r2 => totalExpr (filteredExpr ann expr) r1.transcript_id =
        totalExpr (filteredExpr ann expr) r2.transcript_id →
          strLE r1.transcript_id r2.transcript_id = true)) := by
  unfold order_transcripts_by_expression at h
  cases hk : keepList ann expr top_n range_slice with
  | error e => rw [hk] at h; simp at h
  | ok keep =>
    rw [hk] at h
    dsimp only at h
    injection h with h2
    subst h2
    constructor
    · have hs := List.sorted_insertionSort (ascExprLE (filteredExpr ann expr))
        ((filteredExpr ann expr).filter (fun r => r.transcript_id ∈ keep))
      exact hs.imp (fun hab heq => by
        rcases hab with hlt | ⟨he, hle⟩
        · rw [heq] at hlt; exact absurd hlt (lt_irrefl _)
        · exact hle)
    · have hs := List.sorted_insertionSort (ascAnnLE (filteredExpr ann expr))
        ((filteredAnn ann expr).filter (fun r => r.transcript_id ∈ keep))
      exact hs.imp (fun hab heq => by
        rcases hab with hlt | ⟨he, hle⟩
        · rw [heq] at hlt; exact absurd hlt (lt_irrefl _)
        · exact hle)

/-- The full-window frames the scenario inputs produce (ascending by total
expression: T3 with 10 first, then the 50-50 tie T1 before T2). -/
def outFullC4 : List ExprRow × List AnnRow :=
  ([{ sample_id := "S1", transcript_id := "T3", value := 10 },
    { sample_id := "S1", transcript_id := "T1", value := 50 },
    { sample_id := "S1", transcript_id := "T2", value := 50 }],
   [{ transcript_id := "T3", exon_number := 1 },
    { transcript_id := "T1", exon_number := 1 },
    { transcript_id := "T2", exon_number := 1 }])

/-- Witness for C8 at the scenario frames with the full window. -/
theorem order_transcripts_ties_ascending_id_witness :
    (outFullC4.1.Pairwise
      (fun r1 r2 => totalExpr (filteredExpr annC4 exprC4) r1.transcript_id =
        totalExpr (filteredExpr annC4 exprC4) r2.transcript_id →
          strLE r1.transcript_id r2.transcript_id = true)) ∧
    (outFullC4.2.Pairwise
      (fun r1 r2 => totalExpr (filteredExpr annC4 exprC4) r1.transcript_id =
        totalExpr (filteredExpr annC4 exprC4) r2.transcript_id →
          strLE r1.transcript_id r2.transcript_id = true)) :=
  order_transcripts_ties_ascending_id annC4 exprC4 none none outFullC4 (by rfl)

/-- The group keys of the aggregation are distinct. -/
theorem transcriptsOf_nodup (l : List ExprRow) : (transcriptsOf l).Nodup := by
  have h := map_dedupByKey_nodup (id : String → String) (l.map (fun r => r.transcript_id))
  simpa using h

/-- Membership in the group keys is membership among the frame's transcript
ids. -/
theorem mem_transcriptsOf (l : List ExprRow) (t : String) :
    t ∈ transcriptsOf l ↔ t ∈ l.map (fun r => r.transcript_id) := by
  have h := mem_map_dedupByKey (id : String → String) (l.map (fun r => r.transcript_id)) t
  simpa using h

/-- The sorted transcript list has no duplicates. -/
theorem orderedIds_nodup (ann : List AnnRow) (expr : List ExprRow) :
    (orderedIds ann expr).Nodup := by
  unfold orderedIds aggregated
  rw [List.Perm.nodup_iff ((List.perm_insertionSort descKeyLE _).map Prod.fst)]
  rw [List.map_map]
  have hcomp : (Prod.fst ∘ fun t => (t, totalExpr (filteredExpr ann expr) t)) =
      (fun t : String => t) := rfl
  rw [hcomp, List.map_id']
  exact transcriptsOf_nodup (filteredExpr ann expr)

/-- Membership in the sorted transcript list is membership among the group
keys. -/
theorem mem_orderedIds (ann : List AnnRow) (expr : List ExprRow) (t : String) :
    t ∈ orderedIds ann expr ↔ t ∈ transcriptsOf (filteredExpr ann expr) := by
  unfold orderedIds aggregated
  rw [List.Perm.mem_iff ((List.perm_insertionSort descKeyLE _).map Prod.fst)]
  rw [List.map_map]
  simp [Function.comp]

/-- Transcript ids appearing in the returned expression frame: exactly the
kept window transcripts that have a row in the filtered expression frame. -/
theorem mem_orderedFrames_expr (ann : List AnnRow) (expr : List ExprRow)
    (keep : List String) (x : String) :
    x ∈ (orderedFrames ann expr keep).1.map
        (fun r => r.transcript_id) ↔
      (x ∈ keep ∧ x ∈ transcriptsOf (filteredExpr ann expr)) := by
  unfold orderedFrames
  dsimp only
  rw [List.mem_map]
  constructor
  · rintro ⟨r, hr, rfl⟩
    have hr2 := (List.Perm.mem_iff (List.perm_insertionSort _ _)).mp hr
    rcases List.mem_filter.mp hr2 with ⟨hrf, hrk⟩
    refine ⟨by simpa using hrk, ?_⟩
    rw [mem_transcriptsOf]
    exact List.mem_map_of_mem _ hrf
  · rintro ⟨hxk, hxt⟩
    rw [mem_transcriptsOf] at hxt
    rcases List.mem_map.mp hxt with ⟨r, hrf, hrx⟩
    refine ⟨r, ?_, hrx⟩
    refine (List.Perm.mem_iff (List.perm_insertionSort _ _)).mpr ?_
    refine List.mem_filter.mpr ⟨hrf, ?_⟩
    simpa [hrx] using hxk

/-- Transcript ids appearing in the returned annotation frame: the same
characterization as for the expression frame. -/
theorem mem_orderedFrames_ann (ann : List AnnRow) (expr : List ExprRow)
    (keep : List String) (x : String) :
    x ∈ (orderedFrames ann expr keep).2.map
        (fun r => r.transcript_id) ↔
      (x ∈ keep ∧ x ∈ transcriptsOf (filteredExpr ann expr)) := by
  unfold orderedFrames
  dsimp only
  rw [List.mem_map]
  constructor
  · rintro ⟨a, ha, rfl⟩
    have ha2 := (List.Perm.mem_iff (List.perm_insertionSort _ _)).mp ha
    rcases List.mem_filter.mp ha2 with ⟨haf, hak⟩
    rcases List.mem_filter.mp haf with ⟨hann, hboth⟩
    refine ⟨by simpa using hak, ?_⟩
    unfold inBoth at hboth
    rcases (Bool.and_eq_true _ _).mp hboth with ⟨hha, hhe⟩
    rcases List.any_eq_true.mp hhe with ⟨er, her, hert⟩
    have hert2 : er.transcript_id = a.transcript_id := of_decide_eq_true hert
    rw [mem_transcriptsOf]
    refine List.mem_map.mpr ⟨er, ?_, hert2⟩
    refine List.mem_filter.mpr ⟨her, ?_⟩
    rw [hert2]
    exact hboth
  · rintro ⟨hxk, hxt⟩
    rw [mem_transcriptsOf] at hxt
    rcases List.mem_map.mp hxt with ⟨er, herf, herx⟩
    rcases List.mem_filter.mp herf with ⟨her, hboth⟩
    rw [herx] at hboth
    have hha : ann.any (fun a => a.transcript_id = x) = true := by
      unfold inBoth at hboth
      exact ((Bool.and_eq_true _ _).mp hboth).1
    rcases List.any_eq_true.mp hha with ⟨a, hann, hat⟩
    have hat2 : a.transcript_id = x := of_decide_eq_true hat
    refine ⟨a, ?_, hat2⟩
    refine (List.Perm.mem_iff (List.perm_insertionSort _ _)).mpr ?_
    refine List.mem_filter.mpr ⟨List.mem_filter.mpr ⟨hann, ?_⟩, ?_⟩
    · rw [hat2]; exact hboth
    · simpa [hat2] using hxk

/-- C7: for `top_n = [s, e]` with `0 ≤ s < e ≤ N` (`N` the number of
transcripts present in both frames), `order_transcripts_by_expression`
succeeds and returns frames covering exactly `e - s` distinct transcripts,
and both returned frames cover the same transcript set. -/
theorem order_transcripts_range_window (ann : List AnnRow) (expr : List ExprRow)
    (s e : Nat) (h1 : s < e) (h2 : e ≤ commonCount ann expr) :
    ∃ out, order_transcripts_by_expression ann expr
        (some (PyTopN.list [PyEntry.int (s : Int), PyEntry.int (e : Int)])) none =
        Except.ok out ∧
      ((out.1.map (fun r => r.transcript_id)).toFinset.card = e - s) ∧
      ((out.2.map (fun r => r.transcript_id)).toFinset.card = e - s) ∧
      ((out.1.map (fun r => r.transcript_id)).toFinset =
        (out.2.map (fun r => r.transcript_id)).toFinset) := by
  have hkeepdef : keepList ann expr
      (some (PyTopN.list [PyEntry.int (s : Int), PyEntry.int (e : Int)])) none =
      Except.ok (pySlice (orderedIds ann expr) (s : Int) (e : Int)) := by
    unfold keepList transcriptsToKeep
    dsimp only
    rw [if_pos (by exact_mod_cast Nat.zero_le s), if_pos (by exact_mod_cast h1),
      if_pos (by rw [orderedIds_length]; exact_mod_cast h2)]
  have hsub : List.Sublist (pySlice (orderedIds ann expr) (s : Int) (e : Int))
      (orderedIds ann expr) := by
    unfold pySlice
    exact (List.take_sublist _ _).trans (List.drop_sublist _ _)
  have hnodup : (pySlice (orderedIds ann expr) (s : Int) (e : Int)).Nodup :=
    (orderedIds_nodup ann expr).sublist hsub
  have hlen : (pySlice (orderedIds ann expr) (s : Int) (e : Int)).length = e - s := by
    unfold pySlice
    rw [List.length_take, List.length_drop]
    have hlen2 := orderedIds_length ann expr
    omega
  have hmemkeep : ∀ x, x ∈ pySlice (orderedIds ann expr) (s : Int) (e : Int) →
      x ∈ transcriptsOf (filteredExpr ann expr) := fun x hx =>
    (mem_orderedIds ann expr x).mp (hsub.subset hx)
  refine ⟨orderedFrames ann expr (pySlice (orderedIds ann expr) (s : Int) (e : Int)),
    ?_, ?_, ?_, ?_⟩
  · unfold order_transcripts_by_expression
    rw [hkeepdef]
  · have hset1 : ((orderedFrames ann expr
        (pySlice (orderedIds ann expr) (s : Int) (e : Int))).1.map
          (fun r => r.transcript_id)).toFinset =
        (pySlice (orderedIds ann expr) (s : Int) (e : Int)).toFinset := by
      apply Finset.ext
      intro x
      rw [List.mem_toFinset, List.mem_toFinset, mem_orderedFrames_expr]
      exact ⟨fun hx => hx.1, fun hx => ⟨hx, hmemkeep x hx⟩⟩
    rw [hset1, List.toFinset_card_of_nodup hnodup, hlen]
  · have hset2 : ((orderedFrames ann expr
        (pySlice (orderedIds ann expr) (s : Int) (e : Int))).2.map
          (fun r => r.transcript_id)).toFinset =
        (pySlice (orderedIds ann expr) (s : Int) (e : Int)).toFinset := by
      apply Finset.ext
      intro x
      rw [List.mem_toFinset, List.mem_toFinset, mem_orderedFrames_ann]
      exact ⟨fun hx => hx.1, fun hx => ⟨hx, hmemkeep x hx⟩⟩
    rw [hset2, List.toFinset_card_of_nodup hnodup, hlen]
  · apply Finset.ext
    intro x
    rw [List.mem_toFinset, List.mem_toFinset, mem_orderedFrames_expr, mem_orderedFrames_ann]

/-- Witness for C7 at the scenario frames with the window `[0, 1]`. -/
theorem order_transcripts_range_window_witness :
    ∃ out, order_transcripts_by_expression annC4 exprC4
        (some (PyTopN.list [PyEntry.int ((0 : Nat) : Int),
          PyEntry.int ((1 : Nat) : Int)])) none = Except.ok out ∧
      ((out.1.map (fun r => r.transcript_id)).toFinset.card = 1 - 0) ∧
      ((out.2.map (fun r => r.transcript_id)).toFinset.card = 1 - 0) ∧
      ((out.1.map (fun r => r.transcript_id)).toFinset =
        (out.2.map (fun r => r.transcript_id)).toFinset) :=
  order_transcripts_range_window annC4 exprC4 0 1 (by decide) (by decide)

/-- The tier of a gene for a (lower-cased) query, as the claim defines it:
0 exact, 1 prefix, 2 contains, 3 no match. -/
def tierOf (q : String) (g : String × String) : Nat :=
  if isExactMatch q g = true then 0
  else if (pyStartsWith (pyLower g.1) q || pyStartsWith (pyLower g.2) q) = true then 1
  else if (pyContains (pyLower g.1) q || pyContains (pyLower g.2) q) = true then 2
  else 3

theorem tierOf_of_exact {q : String} {g : String × String}
    (h : isExactMatch q g = true) : tierOf q g = 0 := by
  unfold tierOf
  rw [if_pos h]

theorem tierOf_of_prefixTier {q : String} {g : String × String}
    (h : isPrefixTier q g = true) : tierOf q g = 1 := by
  unfold isPrefixTier at h
  rcases (Bool.and_eq_true _ _).mp h with ⟨hne, hst⟩
  have he : isExactMatch q g = false := by simpa using hne
  unfold tierOf
  simp [he, hst]

theorem tierOf_of_containsTier {q : String} {g : String × String}
    (h : isContainsTier q g = true) : tierOf q g = 2 := by
  unfold isContainsTier at h
  rcases (Bool.and_eq_true _ _).mp h with ⟨hne2, hco⟩
  rcases (Bool.and_eq_true _ _).mp hne2 with ⟨hne, hns⟩
  have he : isExactMatch q g = false := by simpa using hne
  have hs : (pyStartsWith (pyLower g.1) q || pyStartsWith (pyLower g.2) q) = false := by
    simpa using hns
  unfold tierOf
  simp [he, hs, hco]

theorem not_exact_and_prefixTier {q : String} {g : String × String}
    (h1 : isExactMatch q g = true) (h2 : isPrefixTier q g = true) : False := by
  unfold isPrefixTier at h2
  rcases (Bool.and_eq_true _ _).mp h2 with ⟨hne, _⟩
  rw [h1] at hne
  simp at hne

theorem not_exact_and_containsTier {q : String} {g : String × String}
    (h1 : isExactMatch q g = true) (h2 : isContainsTier q g = true) : False := by
  unfold isContainsTier at h2
  rcases (Bool.and_eq_true _ _).mp h2 with ⟨hne2, _⟩
  rcases (Bool.and_eq_true _ _).mp hne2 with ⟨hne, _⟩
  rw [h1] at hne
  simp at hne

theorem not_prefixTier_and_containsTier {q : String} {g : String × String}
    (h1 : isPrefixTier q g = true) (h2 : isContainsTier q g = true) : False := by
  unfold isPrefixTier at h1
  unfold isContainsTier at h2
  rcases (Bool.and_eq_true _ _).mp h1 with ⟨_, hst⟩
  rcases (Bool.and_eq_true _ _).mp h2 with ⟨hne2, _⟩
  rcases (Bool.and_eq_true _ _).mp hne2 with ⟨_, hns⟩
  rw [hst] at hns
  simp at hns

/-- Unrolling of the categorization loop: it processes some prefix of the
gene list (all of it unless the ten-exact-matches break fires) and extends
each accumulator with the corresponding filter of that prefix. -/
theorem classifyLoop_spec (q : String) :
    ∀ (genes ex pre con : List (String × String)),
    ∃ k, classifyLoop q genes ex pre con =
      (ex ++ (genes.take k).filter (isExactMatch q),
       pre ++ (genes.take k).filter (isPrefixTier q),
       con ++ (genes.take k).filter (isContainsTier q)) := by
  intro genes
  induction genes with
  | nil =>
    intro ex pre con
    exact ⟨0, by simp [classifyLoop]⟩
  | cons g rest ih =>
    intro ex pre con
    by_cases hex : isExactMatch q g = true
    · have hpre : ¬ isPrefixTier q g = true := fun h => not_exact_and_prefixTier hex h
      have hcon : ¬ isContainsTier q g = true := fun h => not_exact_and_containsTier hex h
      by_cases hstop : 10 ≤ (ex ++ [g]).length
      · refine ⟨1, ?_⟩
        unfold classifyLoop
        rw [if_pos hex]
        dsimp only
        rw [if_pos hstop]
        simp [hex, hpre, hcon]
      · rcases ih (ex ++ [g]) pre con with ⟨k, hk⟩
        refine ⟨k + 1, ?_⟩
        unfold classifyLoop
        rw [if_pos hex]
        dsimp only
        rw [if_neg hstop, hk]
        simp [hex, hpre, hcon, List.take_succ_cons]
    · by_cases hpre : isPrefixTier q g = true
      · have hcon : ¬ isContainsTier q g = true := fun h => not_prefixTier_and_containsTier hpre h
        by_cases hstop : 10 ≤ ex.length
        · refine ⟨1, ?_⟩
          unfold classifyLoop
          rw [if_neg hex, if_pos hpre]
          dsimp only
          rw [if_pos hstop]
          simp [hex, hpre, hcon]
        · rcases ih ex (pre ++ [g]) con with ⟨k, hk⟩
          refine ⟨k + 1, ?_⟩
          unfold classifyLoop
          rw [if_neg hex, if_pos hpre]
          dsimp only
          rw [if_neg hstop, hk]
          simp [hex, hpre, hcon, List.take_succ_cons]
      · by_cases hcon : isContainsTier q g = true
        · by_cases hstop : 10 ≤ ex.length
          · refine ⟨1, ?_⟩
            unfold classifyLoop
            rw [if_neg hex, if_neg hpre, if_pos hcon]
            dsimp only
            rw [if_pos hstop]
            simp [hex, hpre, hcon]
          · rcases ih ex pre (con ++ [g]) with ⟨k, hk⟩
            refine ⟨k + 1, ?_⟩
            unfold classifyLoop
            rw [if_neg hex, if_neg hpre, if_pos hcon]
            dsimp only
            rw [if_neg hstop, hk]
            simp [hex, hpre, hcon, List.take_succ_cons]
        · by_cases hstop : 10 ≤ ex.length
          · refine ⟨1, ?_⟩
            unfold classifyLoop
            rw [if_neg hex, if_neg hpre, if_neg hcon]
            dsimp only
            rw [if_pos hstop]
            simp [hex, hpre, hcon]
          · rcases ih ex pre con with ⟨k, hk⟩
            refine ⟨k + 1, ?_⟩
            unfold classifyLoop
            rw [if_neg hex, if_neg hpre, if_neg hcon]
            dsimp only
            rw [if_neg hstop, hk]
            simp [hex, hpre, hcon, List.take_succ_cons]

/-- The merged result is a sublist of the concatenated tier lists. -/
theorem mergeTiers_sublist (ex pre con : List (String × String)) :
    List.Sublist (mergeTiers ex pre con) ((ex ++ pre) ++ con) := by
  unfold mergeTiers
  refine (List.take_sublist _ _).trans (List.Sublist.append ?_ ?_)
  · split_ifs with h
    · exact (List.Sublist.refl ex).append (List.take_sublist _ _)
    · exact List.sublist_append_left ex pre
  · split_ifs
    all_goals first
    | exact List.take_sublist _ _
    | exact List.nil_sublist _

/-- Distinct gene ids in the concatenated tier lists, given distinct ids in
the scanned prefix. -/
theorem filters_concat_nodup (q : String) (P : List (String × String))
    (hnd : (P.map Prod.fst).Nodup) :
    (((P.filter (isExactMatch q) ++ P.filter (isPrefixTier q)) ++
      P.filter (isContainsTier q)).map Prod.fst).Nodup := by
  have hinj := List.inj_on_of_nodup_map hnd
  have hE : ((P.filter (isExactMatch q)).map Prod.fst).Nodup :=
    hnd.sublist ((List.filter_sublist _).map Prod.fst)
  have hP : ((P.filter (isPrefixTier q)).map Prod.fst).Nodup :=
    hnd.sublist ((List.filter_sublist _).map Prod.fst)
  have hC : ((P.filter (isContainsTier q)).map Prod.fst).Nodup :=
    hnd.sublist ((List.filter_sublist _).map Prod.fst)
  rw [List.map_append, List.map_append]
  refine List.nodup_append.mpr ⟨List.nodup_append.mpr ⟨hE, hP, ?_⟩, hC, ?_⟩
  · intro x hx1 hx2
    rcases List.mem_map.mp hx1 with ⟨g1, hg1, hgx1⟩
    rcases List.mem_map.mp hx2 with ⟨g2, hg2, hgx2⟩
    have e1 := List.of_mem_filter hg1
    have e2 := List.of_mem_filter hg2
    have hg12 : g1 = g2 := hinj (List.mem_of_mem_filter hg1) (List.mem_of_mem_filter hg2)
      (by rw [hgx1, hgx2])
    exact not_exact_and_prefixTier e1 (hg12 ▸ e2)
  · intro x hx1 hx2
    rcases List.mem_map.mp hx2 with ⟨g2, hg2, hgx2⟩
    have e2 := List.of_mem_filter hg2
    rcases List.mem_append.mp hx1 with hx1 | hx1
    · rcases List.mem_map.mp hx1 with ⟨g1, hg1, hgx1⟩
      have e1 := List.of_mem_filter hg1
      have hg12 : g1 = g2 := hinj (List.mem_of_mem_filter hg1) (List.mem_of_mem_filter hg2)
        (by rw [hgx1, hgx2])
      exact not_exact_and_containsTier e1 (hg12 ▸ e2)
    · rcases List.mem_map.mp hx1 with ⟨g1, hg1, hgx1⟩
      have e1 := List.of_mem_filter hg1
      have hg12 : g1 = g2 := hinj (List.mem_of_mem_filter hg1) (List.mem_of_mem_filter hg2)
        (by rw [hgx1, hgx2])
      exact not_prefixTier_and_containsTier e1 (hg12 ▸ e2)

/-- Tier monotonicity across the concatenated tier lists. -/
theorem filters_concat_tier_pairwise (q : String) (P : List (String × String)) :
    ((P.filter (isExactMatch q) ++ P.filter (isPrefixTier q)) ++
      P.filter (isContainsTier q)).Pairwise
      (fun g1 g2 => tierOf q g1 ≤ tierOf q g2) := by
  refine List.pairwise_append.mpr ⟨List.pairwise_append.mpr ⟨?_, ?_, ?_⟩, ?_, ?_⟩
  · exact List.pairwise_of_forall_mem_list (fun a ha b hb => by
      rw [tierOf_of_exact (List.of_mem_filter ha), tierOf_of_exact (List.of_mem_filter hb)])
  · exact List.pairwise_of_forall_mem_list (fun a ha b hb => by
      rw [tierOf_of_prefixTier (List.of_mem_filter ha),
        tierOf_of_prefixTier (List.of_mem_filter hb)])
  · intro a ha b hb
    rw [tierOf_of_exact (List.of_mem_filter ha), tierOf_of_prefixTier (List.of_mem_filter hb)]
    omega
  · exact List.pairwise_of_forall_mem_list (fun a ha b hb => by
      rw [tierOf_of_containsTier (List.of_mem_filter ha),
        tierOf_of_containsTier (List.of_mem_filter hb)])
  · intro a ha b hb
    rw [tierOf_of_containsTier (List.of_mem_filter hb)]
    rcases List.mem_append.mp ha with ha | ha
    · rw [tierOf_of_exact (List.of_mem_filter ha)]; omega
    · rw [tierOf_of_prefixTier (List.of_mem_filter ha)]; omega

/-- The in-memory search result has distinct gene ids, tier-monotone order
and at most ten entries, provided the index itself has distinct ids. -/
theorem searchInMemory_props (q : String) (genes : List (String × String))
    (hnd : (genes.map Prod.fst).Nodup) :
    ((searchInMemory q genes).map Prod.fst).Nodup ∧
    (searchInMemory q genes).Pairwise (fun g1 g2 => tierOf q g1 ≤ tierOf q g2) ∧
    (searchInMemory q genes).length ≤ 10 := by
  rcases classifyLoop_spec q genes [] [] [] with ⟨k, hk⟩
  have hlen : (searchInMemory q genes).length ≤ 10 := by
    unfold searchInMemory mergeTiers
    exact List.length_take_le _ _
  refine ⟨?_, ?_, hlen⟩
  · have hsub : List.Sublist ((searchInMemory q genes).map Prod.fst)
        ((((genes.take k).filter (isExactMatch q) ++
          (genes.take k).filter (isPrefixTier q)) ++
          (genes.take k).filter (isContainsTier q)).map Prod.fst) := by
      unfold searchInMemory
      rw [hk]
      dsimp only
      simp only [List.nil_append]
      exact (mergeTiers_sublist _ _ _).map Prod.fst
    exact (filters_concat_nodup q (genes.take k)
      (hnd.sublist ((List.take_sublist _ _).map Prod.fst))).sublist hsub
  · have hsub : List.Sublist (searchInMemory q genes)
        (((genes.take k).filter (isExactMatch q) ++
          (genes.take k).filter (isPrefixTier q)) ++
          (genes.take k).filter (isContainsTier q)) := by
      unfold searchInMemory
      rw [hk]
      dsimp only
      simp only [List.nil_append]
      exact mergeTiers_sublist _ _ _
    exact (filters_concat_tier_pairwise q (genes.take k)).sublist hsub

/-- The claim's three tiers collapse the five-way `CASE` rank monotonically:
ranks 1-2 are the exact tier, 3-4 the prefix tier, and rank 5 at worst the
contains tier. -/
theorem tier_collapse (q : String) (g : String × String) :
    (matchRank q g ≤ 2 ∧ tierOf q g = 0) ∨
    ((3 ≤ matchRank q g ∧ matchRank q g ≤ 4) ∧ tierOf q g = 1) ∨
    (matchRank q g = 5 ∧ 2 ≤ tierOf q g) := by
  unfold matchRank tierOf isExactMatch
  by_cases ha : pyLower g.1 = q
  · left
    exact ⟨by simp [ha], by simp [ha]⟩
  · by_cases hb : pyLower g.2 = q
    · left
      exact ⟨by simp [ha, hb], by simp [ha, hb]⟩
    · by_cases hc : pyStartsWith (pyLower g.1) q = true
      · right; left
        exact ⟨by simp [ha, hb, hc], by simp [ha, hb, hc]⟩
      · by_cases hd : pyStartsWith (pyLower g.2) q = true
        · right; left
          exact ⟨by simp [ha, hb, hc, hd], by simp [ha, hb, hc, hd]⟩
        · right; right
          refine ⟨by simp [ha, hb, hc, hd], ?_⟩
          by_cases he : (pyContains (pyLower g.1) q || pyContains (pyLower g.2) q) = true
          · simp [ha, hb, hc, hd, he]
          · simp [ha, hb, hc, hd, he]

/-- For a gene matching the contains pattern the collapse is exact: rank 5
is precisely the contains tier. -/
theorem tier_collapse_of_contains (q : String) (g : String × String)
    (hco : (pyContains (pyLower g.1) q || pyContains (pyLower g.2) q) = true) :
    (matchRank q g ≤ 2 ∧ tierOf q g = 0) ∨
    ((3 ≤ matchRank q g ∧ matchRank q g ≤ 4) ∧ tierOf q g = 1) ∨
    (matchRank q g = 5 ∧ tierOf q g = 2) := by
  unfold matchRank tierOf isExactMatch
  by_cases ha : pyLower g.1 = q
  · left
    exact ⟨by simp [ha], by simp [ha]⟩
  · by_cases hb : pyLower g.2 = q
    · left
      exact ⟨by simp [ha, hb], by simp [ha, hb]⟩
    · by_cases hc : pyStartsWith (pyLower g.1) q = true
      · right; left
        exact ⟨by simp [ha, hb, hc], by simp [ha, hb, hc]⟩
      · by_cases hd : pyStartsWith (pyLower g.2) q = true
        · right; left
          exact ⟨by simp [ha, hb, hc, hd], by simp [ha, hb, hc, hd]⟩
        · right; right
          exact ⟨by simp [ha, hb, hc, hd], by simp [ha, hb, hc, hd, hco]⟩

/-- Rank order implies tier order among genes matching the pattern. -/
theorem tier_le_of_rank_le {q : String} {g1 g2 : String × String}
    (hc1 : (pyContains (pyLower g1.1) q || pyContains (pyLower g1.2) q) = true)
    (hc2 : (pyContains (pyLower g2.1) q || pyContains (pyLower g2.2) q) = true)
    (h : matchRank q g1 ≤ matchRank q g2) : tierOf q g1 ≤ tierOf q g2 := by
  rcases tier_collapse_of_contains q g1 hc1 with ⟨hr1, ht1⟩ | ⟨hr1, ht1⟩ | ⟨hr1, ht1⟩ <;>
    rcases tier_collapse_of_contains q g2 hc2 with ⟨hr2, ht2⟩ | ⟨hr2, ht2⟩ | ⟨hr2, ht2⟩ <;>
      omega

/-- The ranked database query lists results in tier-monotone order. -/
theorem rankedQueryPairs_tier_sorted (db : DB) (q : String) :
    (rankedQueryPairs db q).Pairwise
      (fun g1 g2 => tierOf (pyLower q) g1 ≤ tierOf (pyLower q) g2) := by
  unfold rankedQueryPairs
  have hs := List.sorted_insertionSort (rankNameLE (pyLower q))
    (dedupByKey id (db.annotation_rows.filter
      (fun g => pyContains (pyLower g.1) (pyLower q) || pyContains (pyLower g.2) (pyLower q))))
  have hmem : ∀ g, g ∈ List.insertionSort (rankNameLE (pyLower q))
      (dedupByKey id (db.annotation_rows.filter
        (fun g => pyContains (pyLower g.1) (pyLower q) ||
          pyContains (pyLower g.2) (pyLower q)))) →
      (pyContains (pyLower g.1) (pyLower q) || pyContains (pyLower g.2) (pyLower q)) = true := by
    intro g hg
    have hg2 := (List.Perm.mem_iff (List.perm_insertionSort _ _)).mp hg
    exact (List.mem_filter.mp (mem_of_mem_dedupByKey id _ g hg2)).2
  have hp : (List.insertionSort (rankNameLE (pyLower q))
      (dedupByKey id (db.annotation_rows.filter
        (fun g => pyContains (pyLower g.1) (pyLower q) ||
          pyContains (pyLower g.2) (pyLower q))))).Pairwise
      (fun g1 g2 => tierOf (pyLower q) g1 ≤ tierOf (pyLower q) g2) := by
    refine hs.imp_of_mem (fun ha hb hab => ?_)
    rcases hab with hlt | ⟨heq, _⟩
    · exact tier_le_of_rank_le (hmem _ ha) (hmem _ hb) (Nat.le_of_lt hlt)
    · exact tier_le_of_rank_le (hmem _ ha) (hmem _ hb) (Nat.le_of_eq heq)
  exact hp.sublist (List.take_sublist _ _)

/-- The option conversion keeps the gene id as the option value. -/
theorem toOptions_values (l : List (String × String)) :
    (toOptions l).map (fun o => o.value) = l.map Prod.fst := by
  unfold toOptions
  rw [List.map_map]
  rfl

/-- The database fallback never exceeds ten options. -/
theorem search_db_len (db : DB) (q : String) :
    (_search_genes_database db q).length ≤ 10 := by
  unfold _search_genes_database
  split_ifs
  · unfold toOptions shortQueryPairs
    rw [List.length_map]
    exact List.length_take_le _ _
  · unfold toOptions rankedQueryPairs
    rw [List.length_map]
    exact List.length_take_le _ _

/-- The merged in-memory result never exceeds ten entries. -/
theorem searchInMemory_len (q : String) (genes : List (String × String)) :
    (searchInMemory q genes).length ≤ 10 := by
  unfold searchInMemory mergeTiers
  exact List.length_take_le _ _

/-- C5 amended: every `search_genes` result is capped at ten entries; on the
in-memory path (index loaded and non-empty, non-empty query, per-gene-id
uniqueness of the index as the loader guarantees) the returned values are
unique and the order is tier-monotone (every exact match before every prefix
match before every contains match); on the database fallback path the result
is the database search, and for queries of three or more characters the
ranked query's output is tier-monotone as well.  (For shorter queries the
fallback runs a prefix-only query with no ORDER BY, so neither tier order
nor value uniqueness is guaranteed there.) -/
theorem search_genes_amended (db : DB) (st : DbState) (q : String)
    (hnd : (st.ALL_GENES.map Prod.fst).Nodup) :
    ((search_genes db st q).1.length ≤ 10) ∧
    (st.GENE_INDEX_LOADED = true → st.ALL_GENES ≠ [] → q ≠ "" →
      ((search_genes db st q).1 = toOptions (searchInMemory (pyLower q) st.ALL_GENES) ∧
       ((search_genes db st q).1.map (fun o => o.value)).Nodup ∧
       (searchInMemory (pyLower q) st.ALL_GENES).Pairwise
         (fun g1 g2 => tierOf (pyLower q) g1 ≤ tierOf (pyLower q) g2))) ∧
    (st.GENE_INDEX_LOADED = true → st.ALL_GENES = [] → q ≠ "" →
      (search_genes db st q).1 = _search_genes_database db q) ∧
    (3 ≤ q.length →
      (_search_genes_database db q = toOptions (rankedQueryPairs db q) ∧
       (rankedQueryPairs db q).Pairwise
         (fun g1 g2 => tierOf (pyLower q) g1 ≤ tierOf (pyLower q) g2))) := by
  refine ⟨?_, ?_, ?_, ?_⟩
  · by_cases h0 : q = ""
    · unfold search_genes
      rw [if_pos h0]
      simp
    · unfold search_genes
      rw [if_neg h0]
      dsimp only
      split_ifs with h1 h2 h3
      all_goals dsimp only
      all_goals first
      | exact search_db_len db q
      | (unfold toOptions
         rw [List.length_map]
         exact searchInMemory_len _ _)
  · intro hload hne hq
    have hst1 : (if st.GENE_INDEX_LOADED = true then st else _load_gene_index db st) = st :=
      if_pos hload
    have hout : (search_genes db st q).1 =
        toOptions (searchInMemory (pyLower q) st.ALL_GENES) := by
      unfold search_genes
      rw [if_neg hq]
      dsimp only
      rw [hst1, if_neg hne]
    refine ⟨hout, ?_, (searchInMemory_props (pyLower q) st.ALL_GENES hnd).2.1⟩
    rw [hout, toOptions_values]
    exact (searchInMemory_props (pyLower q) st.ALL_GENES hnd).1
  · intro hload hemp hq
    have hst1 : (if st.GENE_INDEX_LOADED = true then st else _load_gene_index db st) = st :=
      if_pos hload
    unfold search_genes
    rw [if_neg hq]
    dsimp only
    rw [hst1, if_pos hemp]
  · intro hq3
    have hcond : ¬ q.length < 3 := by omega
    refine ⟨?_, rankedQueryPairs_tier_sorted db q⟩
    unfold _search_genes_database
    rw [if_neg hcond]

/-- A database whose annotation table lists one gene id under two names, and
a state whose index load has completed empty (as the synchronous loader
leaves it), so searches run on the database fallback. -/
def dbDup : DB :=
  { annotation_rows := [("AB1", "ZZ"), ("A", "YY"), ("A", "XX")], tables := [] }

/-- State with the loaded flag set but an empty in-memory index. -/
def stLoadedEmpty : DbState := { initState with GENE_INDEX_LOADED := true }

/-- C5 counterexample: on the database fallback path with the short query
"a", the returned values are AB1, A, A — the value A occurs twice (DISTINCT
applies to the (gene_id, gene_name) pair, not the id), and the exact match
A/YY comes after the mere prefix match AB1/ZZ (the short-query SQL has no
ORDER BY).  Both the uniqueness and the tier-priority parts of the claim
fail on this path. -/
theorem search_genes_db_fallback_violations :
    ((search_genes dbDup stLoadedEmpty ("a")).1.map (fun o => o.value) =
      [("AB1"), ("A"), ("A")]) ∧
    ¬ ((search_genes dbDup stLoadedEmpty ("a")).1.map (fun o => o.value)).Nodup ∧
    isExactMatch (pyLower ("a")) (("A"), ("YY")) = true ∧
    isExactMatch (pyLower ("a")) (("AB1"), ("ZZ")) = false ∧
    isPrefixTier (pyLower ("a")) (("AB1"), ("ZZ")) = true := by
  refine ⟨by decide, by decide, by decide, by decide, by decide⟩

/-- A loaded two-gene index for the spec's APOE scenario. -/
def stMem : DbState :=
  { initState with
    GENE_INDEX_LOADED := true
    ALL_GENES := [("ENSG1", "APOE"), ("ENSG2", "APOER2")] }

/-- Witness for the C5 amended theorem on the APOE scenario index. -/
theorem search_genes_amended_witness :
    ((search_genes dbFix stMem ("apoe")).1.length ≤ 10) ∧
    ((search_genes dbFix stMem ("apoe")).1 =
      toOptions (searchInMemory (pyLower ("apoe")) stMem.ALL_GENES)) ∧
    (((search_genes dbFix stMem ("apoe")).1.map (fun o => o.value)).Nodup) ∧
    ((searchInMemory (pyLower ("apoe")) stMem.ALL_GENES).Pairwise
      (fun g1 g2 => tierOf (pyLower ("apoe")) g1 ≤ tierOf (pyLower ("apoe")) g2)) := by
  have h := search_genes_amended dbFix stMem ("apoe") (by decide)
  rcases h with ⟨h1, h2, h3, h4⟩
  rcases h2 (by decide) (by decide) (by decide) with ⟨ha, hb, hc⟩
  exact ⟨h1, ha, hb, hc⟩
